import Mathlib

/-!
Shallow embedding of `src/crop_logo.py` (repository Hikenplat/customer-service).

The script is a single linear pipeline built from three Pillow (PIL) calls:
`Image.open`, `Image.convert('RGBA')` / `Image.getbbox()` / `Image.crop(bbox)`,
plus `Image.save` and status printing, wrapped in a catch-all `try/except` in
the `__main__` block.

Modelling choices, all documented at the definition they concern:
* an in-memory image is a mode tag, a width, a height and a pixel function;
  pixel channels are `Nat` (the 0..255 range is immaterial to every claim);
* Pillow's `getbbox()` on an image with an alpha channel considers, by
  default (`alpha_only=True`), exactly the pixels whose alpha is non-zero;
* the filesystem is a map from path strings to optional file contents, where
  a file either decodes to an image or is undecodable; Python exceptions
  (missing file, decode error, permission error on save) become
  `Except String`.
-/

namespace CropLogo

/-- One pixel of an image in memory: red, green, blue and alpha channels.
For mode `L` (grayscale) only `r` carries the stored band; for mode `RGB`
the `a` field is unused. Pillow stores 8-bit channels; the claims never
depend on the 0..255 bound, so channels are plain `Nat`. -/
structure RGBA where
  r : Nat
  g : Nat
  b : Nat
  a : Nat
deriving DecidableEq

/-- The Pillow pixel modes this program can encounter: `RGBA` (the target of
the conversion in `crop_whitespace`) and two representative alpha-less
modes, `RGB` and `L` (grayscale). -/
inductive Mode where
  | L
  | RGB
  | RGBA
deriving DecidableEq

/-- Whether a mode carries an alpha channel. -/
def Mode.hasAlpha : Mode → Bool
  | .RGBA => true
  | _ => false

/-- An in-memory PIL image: a mode, a width, a height, and the pixel at each
coordinate `(x, y)` with `x < width`, `y < height` (values outside that
range are never consulted by the operations below except by `crop`, which
zero-fills, as Pillow does). -/
structure PImage where
  mode : Mode
  width : Nat
  height : Nat
  pix : Nat → Nat → RGBA

/-- A pixel counts as content for `getbbox` when its alpha is non-zero.
This is Pillow's default bounding-box rule for images with an alpha
channel (`getbbox(alpha_only=True)`): only fully transparent pixels are
background. `crop_whitespace` always converts to RGBA first, so this is
the rule the program runs under. -/
def nonbg (p : RGBA) : Bool :=
  p.a != 0

/-- Does column `x` contain a content (non-background) pixel? -/
def colNonbg (img : PImage) (x : Nat) : Bool :=
  (List.range img.height).any fun y => nonbg (img.pix x y)

/-- Does row `y` contain a content (non-background) pixel? -/
def rowNonbg (img : PImage) (y : Nat) : Bool :=
  (List.range img.width).any fun x => nonbg (img.pix x y)

/-- The columns (x coordinates) holding at least one content pixel, in
ascending order. -/
def contentCols (img : PImage) : List Nat :=
  (List.range img.width).filter (colNonbg img)

/-- The rows (y coordinates) holding at least one content pixel, ascending. -/
def contentRows (img : PImage) : List Nat :=
  (List.range img.height).filter (rowNonbg img)

/-- Model of PIL `Image.getbbox()`: the smallest rectangle
`(left, upper, right, lower)` — `right` and `lower` exclusive — containing
every non-background pixel, or `none` when the image has no content pixel
(Pillow returns `None` there). `left`/`right` come from the leftmost and
rightmost non-background column, `upper`/`lower` from the topmost and
bottommost non-background row. -/
def getbbox (img : PImage) : Option (Nat × Nat × Nat × Nat) :=
  match (contentCols img).min?, (contentRows img).min?,
        (contentCols img).max?, (contentRows img).max? with
  | some l, some t, some r, some b => some (l, t, r + 1, b + 1)
  | _, _, _, _ => none

/-- Model of PIL `Image.crop((l, t, r, b))`: a new image of size
`(r - l) × (b - t)` whose pixel `(x, y)` is the source pixel
`(l + x, t + y)`, zero-filled outside the source extent (Pillow pads crops
that reach outside the image with zero pixels). The mode is kept. -/
def crop (img : PImage) (box : Nat × Nat × Nat × Nat) : PImage :=
  match box with
  | (l, t, r, b) =>
    { mode := img.mode
      width := r - l
      height := b - t
      pix := fun x y =>
        if l + x < img.width ∧ t + y < img.height then img.pix (l + x) (t + y)
        else ⟨0, 0, 0, 0⟩ }

/-- Model of PIL `Image.convert('RGBA')` for the modes in scope: dimensions
are kept; an `RGB` pixel keeps its three channels and gains alpha 255; an
`L` pixel expands its gray level to equal red, green and blue channels and
gains alpha 255; an `RGBA` image is returned unchanged. -/
def convertRGBA (img : PImage) : PImage :=
  { mode := Mode.RGBA
    width := img.width
    height := img.height
    pix := fun x y =>
      match img.mode with
      | .RGBA => img.pix x y
      | .RGB => ⟨(img.pix x y).r, (img.pix x y).g, (img.pix x y).b, 255⟩
      | .L => ⟨(img.pix x y).r, (img.pix x y).r, (img.pix x y).r, 255⟩ }

/-- The conversion step of `crop_whitespace`, literally the source's
`if img.mode != 'RGBA': img = img.convert('RGBA')`. -/
def convIf (img : PImage) : PImage :=
  if img.mode ≠ Mode.RGBA then convertRGBA img else img

/-- The visible color `(red, green, blue)` a pixel displays, independent of
how the mode stores it: an `L` pixel with gray level `v` displays
`(v, v, v)`; `RGB` and `RGBA` pixels display their three color channels. -/
def visibleRGB (img : PImage) (x y : Nat) : Nat × Nat × Nat :=
  match img.mode with
  | .L => ((img.pix x y).r, (img.pix x y).r, (img.pix x y).r)
  | _ => ((img.pix x y).r, (img.pix x y).g, (img.pix x y).b)

/-- The contents of one file on disk: either bytes that decode to an image,
or bytes that do not (any non-image file). -/
inductive FileData where
  | image (img : PImage)
  | invalid

/-- The filesystem state a run sees: the optional contents at each path and
whether each path can be written. File contents are modelled at the level
of the image they decode to (encoding is deterministic, so byte identity
of written files is image identity in the model). -/
structure FS where
  file : String → Option FileData
  writable : String → Bool

/-- Model of `Image.open(path)`: the decoded image, or the exception Python
raises (`FileNotFoundError` for a missing path, `UnidentifiedImageError`
for undecodable bytes) as an `Except.error` message. -/
def openImage (fs : FS) (path : String) : Except String PImage :=
  match fs.file path with
  | none => Except.error ("No such file or directory: " ++ path)
  | some FileData.invalid => Except.error ("cannot identify image file " ++ path)
  | some (FileData.image img) => Except.ok img

/-- Model of `Image.save(path)`: replaces the contents at `path`
(overwriting whatever was there) when the path is writable, and raises
(`PermissionError`) otherwise. No other path is touched. -/
def save (fs : FS) (img : PImage) (path : String) : Except String FS :=
  if fs.writable path then
    Except.ok
      { file := fun q => if q = path then some (FileData.image img) else fs.file q
        writable := fs.writable }
  else Except.error ("Permission denied: " ++ path)

/-- Renders `img.size`, the Python tuple `(width, height)`, the way
`print(f"... {img.size}")` shows it. -/
def sizeStr (img : PImage) : String :=
  "(" ++ toString img.width ++ ", " ++ toString img.height ++ ")"

/-- The four status lines the source prints on the success branch. -/
def successLines (img cropped : PImage) (output_path : String) : List String :=
  ["✅ Logo cropped successfully!",
   "   Original size: " ++ sizeStr img,
   "   Cropped size: " ++ sizeStr cropped,
   "   Saved to: " ++ output_path]

/-- The status line the source prints when no bounding box is found. -/
def noContentLine : String :=
  "❌ Could not find content to crop"

/-- Shallow embedding of `crop_whitespace(image_path, output_path)`:
open the image, convert to RGBA unless already RGBA, compute the bounding
box; if one is found, crop to it, save to `output_path` and return the
four status lines; otherwise change nothing and return the no-content
line. Exceptions from open or save propagate as `Except.error`. The
result on success is the filesystem after the call and the printed lines,
in order. -/
def crop_whitespace (fs : FS) (image_path output_path : String) :
    Except String (FS × List String) :=
  match openImage fs image_path with
  | Except.error e => Except.error e
  | Except.ok img0 =>
    let img := convIf img0
    match getbbox img with
    | some bbox =>
      let cropped := crop img bbox
      match save fs cropped output_path with
      | Except.error e => Except.error e
      | Except.ok fs1 => Except.ok (fs1, successLines img cropped output_path)
    | none => Except.ok (fs, [noContentLine])

/-- The filesystem after a call to `crop_whitespace`, on every branch: the
saved state when the call succeeds, the unchanged input state when it
raises (the exception escapes before any write; `save` is the only
writing operation and it either completes or raises without writing). -/
def crop_finalFS (fs : FS) (image_path output_path : String) : FS :=
  match crop_whitespace fs image_path output_path with
  | Except.ok (fs1, _) => fs1
  | Except.error _ => fs

/-- The hard-coded path of the `__main__` block (used as both input and
output path). -/
def hsbc_path : String := "scripts/public/hsbc_logo.png"

/-- Shallow embedding of the `__main__` block: run `crop_whitespace` on the
hard-coded path; catch any exception, printing the error and the
remediation hint. The result is the final filesystem and the printed
lines; the function is total, so the process always returns normally. -/
def main_run (fs : FS) : FS × List String :=
  match crop_whitespace fs hsbc_path hsbc_path with
  | Except.ok r => r
  | Except.error e =>
      (fs, ["❌ Error: " ++ e,
            "\n💡 Make sure Pillow is installed: pip install Pillow"])

/-! ### Helper lemmas about the conversion step -/

theorem convIf_width (img : PImage) : (convIf img).width = img.width := by
  unfold convIf
  split <;> rfl

theorem convIf_height (img : PImage) : (convIf img).height = img.height := by
  unfold convIf
  split <;> rfl

/-! ### Helper lemmas about `getbbox` -/

/-- When every pixel of the image is content, the bounding box is the full
extent. -/
theorem getbbox_full_of_all_nonbg (img : PImage) (hw : 0 < img.width)
    (hh : 0 < img.height)
    (h : ∀ x, x < img.width → ∀ y, y < img.height → nonbg (img.pix x y) = true) :
    getbbox img = some (0, 0, img.width, img.height) := by
  have hcols : contentCols img = List.range img.width := by
    apply List.filter_eq_self.mpr
    intro x hx
    show ((List.range img.height).any fun y => nonbg (img.pix x y)) = true
    exact List.any_eq_true.mpr
      ⟨0, List.mem_range.mpr hh, h x (List.mem_range.mp hx) 0 hh⟩
  have hrows : contentRows img = List.range img.height := by
    apply List.filter_eq_self.mpr
    intro y hy
    show ((List.range img.width).any fun x => nonbg (img.pix x y)) = true
    exact List.any_eq_true.mpr
      ⟨0, List.mem_range.mpr hw, h 0 hw y (List.mem_range.mp hy)⟩
  have hminx : (List.range img.width).min? = some 0 :=
    List.min?_eq_some_iff'.mpr ⟨List.mem_range.mpr hw, fun c _ => Nat.zero_le c⟩
  have hminy : (List.range img.height).min? = some 0 :=
    List.min?_eq_some_iff'.mpr ⟨List.mem_range.mpr hh, fun c _ => Nat.zero_le c⟩
  have hmaxx : (List.range img.width).max? = some (img.width - 1) :=
    List.max?_eq_some_iff'.mpr
      ⟨List.mem_range.mpr (Nat.sub_lt hw Nat.one_pos),
       fun c hc => Nat.le_pred_of_lt (List.mem_range.mp hc)⟩
  have hmaxy : (List.range img.height).max? = some (img.height - 1) :=
    List.max?_eq_some_iff'.mpr
      ⟨List.mem_range.mpr (Nat.sub_lt hh Nat.one_pos),
       fun c hc => Nat.le_pred_of_lt (List.mem_range.mp hc)⟩
  unfold getbbox
  rw [hcols, hrows, hminx, hminy, hmaxx, hmaxy]
  have hw1 : img.width - 1 + 1 = img.width := Nat.succ_pred_eq_of_pos hw
  have hh1 : img.height - 1 + 1 = img.height := Nat.succ_pred_eq_of_pos hh
  simp [hw1, hh1]

/-- When every pixel of the image is background, there is no bounding box. -/
theorem getbbox_none_of_all_bg (img : PImage)
    (h : ∀ x, x < img.width → ∀ y, y < img.height → nonbg (img.pix x y) = false) :
    getbbox img = none := by
  have hcols : contentCols img = [] := by
    apply List.filter_eq_nil_iff.mpr
    intro x hx hcol
    have hcol' : ((List.range img.height).any fun y => nonbg (img.pix x y)) = true := hcol
    rcases List.any_eq_true.mp hcol' with ⟨y, hy, hnb⟩
    rw [h x (List.mem_range.mp hx) y (List.mem_range.mp hy)] at hnb
    exact Bool.noConfusion hnb
  unfold getbbox
  rw [hcols]
  rfl

/-! ### Helper lemmas about the `crop_whitespace` pipeline -/

/-- Reduction of `crop_whitespace` on the branch where the image opens, a
bounding box is found and the output path is writable. -/
theorem crop_whitespace_found (fs : FS) (ip op : String) (img : PImage)
    (box : Nat × Nat × Nat × Nat)
    (hread : fs.file ip = some (FileData.image img))
    (hwr : fs.writable op = true)
    (hbox : getbbox (convIf img) = some box) :
    crop_whitespace fs ip op =
      Except.ok
        ({ file := fun q =>
             if q = op then some (FileData.image (crop (convIf img) box))
             else fs.file q,
           writable := fs.writable },
         successLines (convIf img) (crop (convIf img) box) op) := by
  unfold crop_whitespace openImage save
  rw [hread]
  simp [hbox, hwr]

/-- Reduction of `crop_whitespace` on the branch where the image opens but
no bounding box is found. -/
theorem crop_whitespace_notfound (fs : FS) (ip op : String) (img : PImage)
    (hread : fs.file ip = some (FileData.image img))
    (hbox : getbbox (convIf img) = none) :
    crop_whitespace fs ip op = Except.ok (fs, [noContentLine]) := by
  unfold crop_whitespace openImage
  rw [hread]
  simp [hbox]

/-! ### Concrete images and filesystem states used as witnesses -/

/-- A 2×2 RGBA image, fully transparent except one opaque red pixel at
`(1, 1)`; its bounding box is `(1, 1, 2, 2)`. -/
def ex1 : PImage :=
  { mode := Mode.RGBA, width := 2, height := 2,
    pix := fun x y => if x = 1 ∧ y = 1 then ⟨200, 0, 0, 255⟩ else ⟨0, 0, 0, 0⟩ }

/-- A filesystem holding `ex1` at `"logo.png"`, everything writable. -/
def fs1 : FS :=
  { file := fun q => if q = "logo.png" then some (FileData.image ex1) else none,
    writable := fun _ => true }

/-- A 2×2 `RGB`-mode image with every pixel `(10, 20, 30)` (no alpha
channel; fully opaque once converted). -/
def exOp : PImage :=
  { mode := Mode.RGB, width := 2, height := 2, pix := fun _ _ => ⟨10, 20, 30, 0⟩ }

/-- A filesystem holding `exOp` at `"logo.png"`, everything writable. -/
def fsOp : FS :=
  { file := fun q => if q = "logo.png" then some (FileData.image exOp) else none,
    writable := fun _ => true }

/-- A 1×1 opaque RGBA image: its bounding box `(0, 0, 1, 1)` is its full
extent, so it is already tightly cropped. -/
def exTight : PImage :=
  { mode := Mode.RGBA, width := 1, height := 1, pix := fun _ _ => ⟨5, 6, 7, 255⟩ }

/-- A filesystem holding `exTight` at `"logo.png"`, everything writable. -/
def fsTight : FS :=
  { file := fun q => if q = "logo.png" then some (FileData.image exTight) else none,
    writable := fun _ => true }

/-- A 3×3 RGBA image that is uniformly fully transparent: every pixel is
background, so it has no bounding box. -/
def exBlank : PImage :=
  { mode := Mode.RGBA, width := 3, height := 3, pix := fun _ _ => ⟨0, 0, 0, 0⟩ }

/-- A filesystem holding `exBlank` at `"in.png"`, everything writable. -/
def fsBlank : FS :=
  { file := fun q => if q = "in.png" then some (FileData.image exBlank) else none,
    writable := fun _ => true }

/-- A 2×2 RGBA image that is fully uniform — every pixel is the same opaque
black `(0, 0, 0, 255)`. -/
def exBlack : PImage :=
  { mode := Mode.RGBA, width := 2, height := 2, pix := fun _ _ => ⟨0, 0, 0, 255⟩ }

/-- A filesystem holding `exBlack` at `"in.png"` and nothing else,
everything writable: in particular there is no file at `"out.png"`. -/
def fsBlack : FS :=
  { file := fun q => if q = "in.png" then some (FileData.image exBlack) else none,
    writable := fun _ => true }

/-- The spec's worked example: a 200×100 RGBA image, fully white
(`(255, 255, 255, 255)`) except for a 50×30 opaque non-white rectangle
with top-left corner at `(75, 35)`. -/
def ex200 : PImage :=
  { mode := Mode.RGBA, width := 200, height := 100,
    pix := fun x y =>
      if 75 ≤ x ∧ x < 125 ∧ 35 ≤ y ∧ y < 65 then ⟨219, 6, 23, 255⟩
      else ⟨255, 255, 255, 255⟩ }

/-- A filesystem holding `ex200` at `"logo.png"`, everything writable. -/
def fs200 : FS :=
  { file := fun q => if q = "logo.png" then some (FileData.image ex200) else none,
    writable := fun _ => true }

/-- An empty filesystem: no file exists and no path is writable. -/
def fsEmpty : FS :=
  { file := fun _ => none, writable := fun _ => false }

/-- The status lines printed by a call to `crop_whitespace` (empty when the
call raises: nothing is printed inside the function on that path). -/
def crop_linesOut (fs : FS) (ip op : String) : List String :=
  match crop_whitespace fs ip op with
  | Except.ok (_, lines) => lines
  | Except.error _ => []

/-! ### Claim theorems -/

/-- C1: for every image whose bounding box of non-background pixels is
found, `crop_whitespace` produces an image whose width equals the box's
right minus left and whose height equals the box's bottom minus top, and
writes that image to `output_path`, overwriting any file already at that
path (the write replaces the contents at `output_path` whatever they
were). -/
theorem crop_writes_bbox_dimensions (fs : FS) (ip op : String) (img : PImage)
    (l t r b : Nat)
    (hread : fs.file ip = some (FileData.image img))
    (hwr : fs.writable op = true)
    (hbox : getbbox (convIf img) = some (l, t, r, b)) :
    ∃ fs' : FS,
      crop_whitespace fs ip op =
        Except.ok (fs', successLines (convIf img) (crop (convIf img) (l, t, r, b)) op) ∧
      fs'.file op = some (FileData.image (crop (convIf img) (l, t, r, b))) ∧
      (crop (convIf img) (l, t, r, b)).width = r - l ∧
      (crop (convIf img) (l, t, r, b)).height = b - t := by
  refine ⟨_, crop_whitespace_found fs ip op img (l, t, r, b) hread hwr hbox, ?_, rfl, rfl⟩
  simp

/-- Witness for C1 at the concrete image `ex1`, whose bounding box is
`(1, 1, 2, 2)`. -/
theorem crop_writes_bbox_dimensions_witness :
    ∃ fs' : FS,
      crop_whitespace fs1 "logo.png" "out.png" =
        Except.ok (fs',
          successLines (convIf ex1) (crop (convIf ex1) (1, 1, 2, 2)) "out.png") ∧
      fs'.file "out.png" = some (FileData.image (crop (convIf ex1) (1, 1, 2, 2))) ∧
      (crop (convIf ex1) (1, 1, 2, 2)).width = 2 - 1 ∧
      (crop (convIf ex1) (1, 1, 2, 2)).height = 2 - 1 :=
  crop_writes_bbox_dimensions fs1 "logo.png" "out.png" ex1 1 1 2 2 rfl rfl (by decide)

/-- C8: whenever the bounding-box computation returns a box
`(left, top, right, bottom)`, it satisfies `left ≤ right`,
`top ≤ bottom`, and lies within the image's extent
(`right ≤ width`, `bottom ≤ height`); and the box may be absent entirely —
on the uniform-background image `exBlank` it is `none`. -/
theorem getbbox_box_invariants (img : PImage) (l t r b : Nat)
    (h : getbbox img = some (l, t, r, b)) :
    (l ≤ r ∧ t ≤ b ∧ r ≤ img.width ∧ b ≤ img.height) ∧
    getbbox exBlank = none := by
  refine ⟨?_, getbbox_none_of_all_bg exBlank (fun x _ y _ => rfl)⟩
  unfold getbbox at h
  split at h
  next l0 t0 r0 b0 hminx hminy hmaxx hmaxy =>
    simp only [Option.some.injEq, Prod.mk.injEq] at h
    obtain ⟨rfl, rfl, rfl, rfl⟩ := h
    obtain ⟨hlmem, hlmin⟩ := List.min?_eq_some_iff'.mp hminx
    obtain ⟨hrmem, hrmax⟩ := List.max?_eq_some_iff'.mp hmaxx
    obtain ⟨htmem, htmin⟩ := List.min?_eq_some_iff'.mp hminy
    obtain ⟨hbmem, hbmax⟩ := List.max?_eq_some_iff'.mp hmaxy
    have h1 : l0 ≤ r0 := hlmin r0 hrmem
    have h2 : r0 < img.width := List.mem_range.mp (List.mem_filter.mp hrmem).1
    have h3 : t0 ≤ b0 := htmin b0 hbmem
    have h4 : b0 < img.height := List.mem_range.mp (List.mem_filter.mp hbmem).1
    omega
  next => exact Option.noConfusion h

/-- Witness for C8 at the concrete image `ex1`, whose bounding box is
`(1, 1, 2, 2)` inside a 2×2 extent. -/
theorem getbbox_box_invariants_witness :
    (1 ≤ 2 ∧ 1 ≤ 2 ∧ 2 ≤ ex1.width ∧ 2 ≤ ex1.height) ∧
    getbbox exBlank = none :=
  getbbox_box_invariants ex1 1 1 2 2 (by decide)

/-- C9: `crop_whitespace` is deterministic. Every input a run depends on —
the filesystem contents it reads and the two paths — is an explicit
argument of the embedded function, which is pure: two runs on identical
inputs return identical results, hence compute the same bounding box,
write identical output files (or both write none) and produce the same
status lines. -/
theorem crop_whitespace_deterministic (fsa fsb : FS) (ipa ipb opa opb : String)
    (hfs : fsa = fsb) (hip : ipa = ipb) (hop : opa = opb) :
    crop_whitespace fsa ipa opa = crop_whitespace fsb ipb opb := by
  rw [hfs, hip, hop]

/-- Witness for C9: two runs on the concrete filesystem `fs1` with equal
paths agree. -/
theorem crop_whitespace_deterministic_witness :
    crop_whitespace fs1 "logo.png" "out.png" =
      crop_whitespace fs1 "logo.png" "out.png" :=
  crop_whitespace_deterministic fs1 fs1 "logo.png" "logo.png" "out.png" "out.png"
    rfl rfl rfl

/-- C10: frame property — `crop_whitespace` never writes to any path other
than `output_path`: on every branch (image opens or not, box found or
not, save succeeds or raises) the final filesystem agrees with the
initial one at every path `p ≠ output_path`; in particular, when
`output_path` differs from `input_path`, the file at `input_path` is
unchanged. -/
theorem crop_whitespace_frame (fs : FS) (ip op p : String) (hp : p ≠ op) :
    (crop_finalFS fs ip op).file p = fs.file p := by
  unfold crop_finalFS crop_whitespace
  cases hopen : openImage fs ip with
  | error e => rfl
  | ok img0 =>
    cases hbox : getbbox (convIf img0) with
    | none => simp [hbox]
    | some box =>
      cases hwr : fs.writable op with
      | false => simp [hbox, save, hwr]
      | true => simp [hbox, save, hwr, hp]

/-- Witness for C10: applying the call on `fs1` with output `"out.png"`
leaves the input file `"logo.png"` unchanged. -/
theorem crop_whitespace_frame_witness :
    (crop_finalFS fs1 "logo.png" "out.png").file "logo.png" =
      fs1.file "logo.png" :=
  crop_whitespace_frame fs1 "logo.png" "out.png" "logo.png" (by decide)

/-- C4: for every input image with positive dimensions that is fully opaque
after conversion to RGBA (alpha 255 at every pixel), the computed
bounding box equals the full image extent, so the saved output has
exactly the same dimensions as the input: white or any other opaque
border pixels are never removed, because `getbbox` treats only fully
transparent pixels as background. -/
theorem opaque_image_full_bbox (fs : FS) (ip op : String) (img : PImage)
    (hread : fs.file ip = some (FileData.image img))
    (hwr : fs.writable op = true)
    (hw : 0 < img.width) (hh : 0 < img.height)
    (hop : ∀ x, x < img.width → ∀ y, y < img.height →
      ((convIf img).pix x y).a = 255) :
    getbbox (convIf img) = some (0, 0, img.width, img.height) ∧
    ∃ fs' : FS,
      crop_whitespace fs ip op =
        Except.ok (fs', successLines (convIf img)
          (crop (convIf img) (0, 0, img.width, img.height)) op) ∧
      fs'.file op =
        some (FileData.image (crop (convIf img) (0, 0, img.width, img.height))) ∧
      (crop (convIf img) (0, 0, img.width, img.height)).width = img.width ∧
      (crop (convIf img) (0, 0, img.width, img.height)).height = img.height := by
  have hbox : getbbox (convIf img) = some (0, 0, img.width, img.height) := by
    have h := getbbox_full_of_all_nonbg (convIf img)
      (by rw [convIf_width]; exact hw) (by rw [convIf_height]; exact hh)
      (fun x hx y hy => by
        have hx' : x < img.width := by rw [convIf_width] at hx; exact hx
        have hy' : y < img.height := by rw [convIf_height] at hy; exact hy
        simp [nonbg, hop x hx' y hy'])
    rw [convIf_width, convIf_height] at h
    exact h
  refine ⟨hbox, _, crop_whitespace_found fs ip op img _ hread hwr hbox, ?_, ?_, ?_⟩
  · simp
  · simp [crop]
  · simp [crop]

/-- Witness for C4 at the concrete alpha-less image `exOp` (2×2, mode RGB),
fully opaque after conversion. -/
theorem opaque_image_full_bbox_witness :
    getbbox (convIf exOp) = some (0, 0, exOp.width, exOp.height) ∧
    ∃ fs' : FS,
      crop_whitespace fsOp "logo.png" "out.png" =
        Except.ok (fs', successLines (convIf exOp)
          (crop (convIf exOp) (0, 0, exOp.width, exOp.height)) "out.png") ∧
      fs'.file "out.png" =
        some (FileData.image (crop (convIf exOp) (0, 0, exOp.width, exOp.height))) ∧
      (crop (convIf exOp) (0, 0, exOp.width, exOp.height)).width = exOp.width ∧
      (crop (convIf exOp) (0, 0, exOp.width, exOp.height)).height = exOp.height :=
  opaque_image_full_bbox fsOp "logo.png" "out.png" exOp rfl rfl
    (by decide) (by decide) (fun x _ y _ => rfl)

/-- C5: idempotence — for every image whose bounding box equals its full
extent (already tightly cropped), running `crop_whitespace` writes an
output whose dimensions are identical to the input's dimensions. -/
theorem tight_image_same_dimensions (fs : FS) (ip op : String) (img : PImage)
    (hread : fs.file ip = some (FileData.image img))
    (hwr : fs.writable op = true)
    (hbox : getbbox (convIf img) = some (0, 0, img.width, img.height)) :
    ∃ fs' : FS,
      crop_whitespace fs ip op =
        Except.ok (fs', successLines (convIf img)
          (crop (convIf img) (0, 0, img.width, img.height)) op) ∧
      fs'.file op =
        some (FileData.image (crop (convIf img) (0, 0, img.width, img.height))) ∧
      (crop (convIf img) (0, 0, img.width, img.height)).width = img.width ∧
      (crop (convIf img) (0, 0, img.width, img.height)).height = img.height := by
  refine ⟨_, crop_whitespace_found fs ip op img _ hread hwr hbox, ?_, ?_, ?_⟩
  · simp
  · simp [crop]
  · simp [crop]

/-- Witness for C5 at the concrete already-tight image `exTight` (1×1
opaque, bounding box `(0, 0, 1, 1)`). -/
theorem tight_image_same_dimensions_witness :
    ∃ fs' : FS,
      crop_whitespace fsTight "logo.png" "out.png" =
        Except.ok (fs', successLines (convIf exTight)
          (crop (convIf exTight) (0, 0, exTight.width, exTight.height)) "out.png") ∧
      fs'.file "out.png" =
        some (FileData.image
          (crop (convIf exTight) (0, 0, exTight.width, exTight.height))) ∧
      (crop (convIf exTight) (0, 0, exTight.width, exTight.height)).width =
        exTight.width ∧
      (crop (convIf exTight) (0, 0, exTight.width, exTight.height)).height =
        exTight.height :=
  tight_image_same_dimensions fsTight "logo.png" "out.png" exTight rfl rfl (by decide)

/-- C6: an input whose pixel format lacks an alpha channel is converted to
RGBA before the bounding box is computed (`crop_whitespace` applies
`getbbox` to `convIf img`, which converts exactly when the mode is not
RGBA), the conversion preserves dimensions and visible color content and
sets every alpha to 255, and an input already in RGBA is left
unconverted. -/
theorem convert_preserves_content (img : PImage) :
    (img.mode.hasAlpha = false →
      convIf img = convertRGBA img ∧
      (convertRGBA img).mode = Mode.RGBA ∧
      (convertRGBA img).width = img.width ∧
      (convertRGBA img).height = img.height ∧
      ∀ x y, visibleRGB (convertRGBA img) x y = visibleRGB img x y ∧
        ((convertRGBA img).pix x y).a = 255) ∧
    (img.mode = Mode.RGBA → convIf img = img) := by
  constructor
  · intro hna
    refine ⟨?_, rfl, rfl, rfl, ?_⟩
    · have hne : img.mode ≠ Mode.RGBA := by
        cases hm : img.mode <;> simp_all [Mode.hasAlpha]
      simp [convIf, hne]
    · intro x y
      cases hm : img.mode
      case RGBA => rw [hm] at hna; exact absurd hna (by simp [Mode.hasAlpha])
      case RGB => exact ⟨by simp [visibleRGB, convertRGBA, hm], by simp [convertRGBA, hm]⟩
      case L => exact ⟨by simp [visibleRGB, convertRGBA, hm], by simp [convertRGBA, hm]⟩
  · intro hm
    simp [convIf, hm]

/-- Witness for C6 at the concrete RGB-mode (alpha-less) image `exOp`. -/
theorem convert_preserves_content_witness :
    convIf exOp = convertRGBA exOp ∧
    visibleRGB (convertRGBA exOp) 0 0 = visibleRGB exOp 0 0 ∧
    ((convertRGBA exOp).pix 0 0).a = 255 :=
  ⟨((convert_preserves_content exOp).1 rfl).1,
   (((convert_preserves_content exOp).1 rfl).2.2.2.2 0 0).1,
   (((convert_preserves_content exOp).1 rfl).2.2.2.2 0 0).2⟩

/-- C7: every failure raised inside `crop_whitespace` (missing file, decode
error, permission error on save) is caught by the entry point, which
prints a generic error message containing the underlying error plus the
remediation hint and returns normally (`main_run` is total, and on the
error branch it returns the unchanged filesystem with exactly those two
lines). -/
theorem main_catches_all_errors (fs : FS) (e : String)
    (h : crop_whitespace fs hsbc_path hsbc_path = Except.error e) :
    main_run fs =
      (fs, ["❌ Error: " ++ e,
            "\n💡 Make sure Pillow is installed: pip install Pillow"]) := by
  unfold main_run
  rw [h]

/-- Witness for C7 on the empty filesystem, where `Image.open` raises a
missing-file error. -/
theorem main_catches_all_errors_witness :
    main_run fsEmpty =
      (fsEmpty, ["❌ Error: " ++ ("No such file or directory: " ++ hsbc_path),
                 "\n💡 Make sure Pillow is installed: pip install Pillow"]) :=
  main_catches_all_errors fsEmpty ("No such file or directory: " ++ hsbc_path) rfl

/-- C3 counterexample: `exBlack` is a fully uniform image — every pixel is
the same opaque black `(0, 0, 0, 255)` — yet `crop_whitespace` does not
report no-content-found: it finds the full-extent bounding box
`(0, 0, 2, 2)`, writes an output file at `"out.png"` (where no file
existed before the call) and prints the success lines. -/
theorem uniform_opaque_image_is_cropped :
    (∀ x y, exBlack.pix x y = ⟨0, 0, 0, 255⟩) ∧
    fsBlack.file "out.png" = none ∧
    getbbox (convIf exBlack) = some (0, 0, 2, 2) ∧
    (crop_finalFS fsBlack "in.png" "out.png").file "out.png" =
      some (FileData.image (crop exBlack (0, 0, 2, 2))) ∧
    crop_linesOut fsBlack "in.png" "out.png" ≠ [noContentLine] :=
  ⟨fun _ _ => rfl, rfl, by decide, rfl, by decide⟩

/-- C3 (amended): for every image all of whose pixels are background after
RGBA conversion (fully transparent, alpha 0) — in particular every
uniform fully transparent image — `crop_whitespace` reports
no-content-found and returns the filesystem unchanged: no output file is
written or modified. -/
theorem uniform_background_reports_no_content (fs : FS) (ip op : String)
    (img : PImage)
    (hread : fs.file ip = some (FileData.image img))
    (hbg : ∀ x, x < img.width → ∀ y, y < img.height →
      ((convIf img).pix x y).a = 0) :
    crop_whitespace fs ip op = Except.ok (fs, [noContentLine]) := by
  apply crop_whitespace_notfound fs ip op img hread
  apply getbbox_none_of_all_bg
  intro x hx y hy
  have hx' : x < img.width := by rw [convIf_width] at hx; exact hx
  have hy' : y < img.height := by rw [convIf_height] at hy; exact hy
  simp [nonbg, hbg x hx' y hy']

/-- Witness for the amended C3 at the concrete uniform fully transparent
image `exBlank`. -/
theorem uniform_background_reports_no_content_witness :
    crop_whitespace fsBlank "in.png" "out.png" =
      Except.ok (fsBlank, [noContentLine]) :=
  uniform_background_reports_no_content fsBlank "in.png" "out.png" exBlank rfl
    (fun _ _ _ _ => rfl)

set_option maxRecDepth 10000 in
/-- C2 (evaluation at the spec's worked example): on the 200×100 fully
white image with a 50×30 opaque non-white rectangle at `(75, 35)`, the
code computes the full-extent bounding box `(0, 0, 200, 100)` — not the
rectangle's box `(75, 35, 125, 65)` — and writes a 200×100 output, not
the 50×30 image the spec expects: `getbbox` never treats opaque white
pixels as background. -/
theorem hsbc_example_not_cropped :
    getbbox (convIf ex200) = some (0, 0, 200, 100) ∧
    (crop_finalFS fs200 "logo.png" "out.png").file "out.png" =
      some (FileData.image (crop ex200 (0, 0, 200, 100))) ∧
    (crop ex200 (0, 0, 200, 100)).width = 200 ∧
    (crop ex200 (0, 0, 200, 100)).height = 100 ∧
    ((crop ex200 (0, 0, 200, 100)).width, (crop ex200 (0, 0, 200, 100)).height) ≠
      (50, 30) := by
  refine ⟨by decide, ?_, rfl, rfl, by decide⟩
  rfl

end CropLogo
